import Mathlib

/-!
Verification of the reliability-measurement-server core against its
specification.  The Rust sources are shallowly embedded: `u128`/`usize`/`u32`
machine integers become `ℕ` (all quantities handled by the scorer and the
puzzles are far below the overflow bounds the source relies on, see spec §9),
byte buffers become `List ℕ` with every element a byte value, `BigUint`
becomes `ℕ`, and fallible code returns explicit result types.
-/

/-! ## Message model (src/shared/src/lib.rs) -/

inductive Challenge
  | CPUChallenge (payload : List ℕ)
  | NetworkChallenge (payload : List ℕ)
  deriving DecidableEq

inductive Response
  | CPUChallengeResponse (payload : List ℕ)
  | NetworkChallengeResponse (payload : List ℕ)
  deriving DecidableEq

inductive Data
  | Info (text : String)
  | Error (text : String)
  | Result (text : String)
  deriving DecidableEq

inductive Message
  | Challenge (c : Challenge)
  | Response (r : Response)
  | Data (d : Data)
  | Unknown
  deriving DecidableEq

/-! ## Scorer (src/server/src/measurements/score.rs) -/

structure CPUChallengeConfiguration where
  squarings : ℕ
  ideal_milliseconds : ℕ
  max_milliseconds : ℕ
  deriving DecidableEq

structure NetworkChallengeConfiguration where
  data_size_kb : ℕ
  ideal_milliseconds : ℕ
  max_milliseconds : ℕ
  deriving DecidableEq

/-- Embedding of `find_mean`: sum of the elements divided (truncating) by the
length of the vector. -/
def find_mean (data : List ℕ) : ℕ := data.sum / data.length

/-- Embedding of `calculate_score`.  The two early-return loops of the source
become `List.any` guards; the rest is the source expression verbatim. -/
def calculate_score (cpu_challenge_config : CPUChallengeConfiguration) (cpu_results : List ℕ)
    (network_challenge_config : NetworkChallengeConfiguration)
    (network_results : List ℕ) : ℕ :=
  let cpu_results_median := find_mean cpu_results
  let network_results_median := find_mean network_results
  if cpu_results.any fun r => decide (cpu_challenge_config.max_milliseconds < r) then 0
  else if network_results.any fun r => decide (network_challenge_config.max_milliseconds < r) then 0
  else
    let cpu_score :=
      if cpu_results_median < cpu_challenge_config.ideal_milliseconds then 0
      else
        (cpu_results_median - cpu_challenge_config.ideal_milliseconds) * (50 - 0) /
          (cpu_challenge_config.max_milliseconds - cpu_challenge_config.ideal_milliseconds)
    let network_score :=
      if network_results_median < network_challenge_config.ideal_milliseconds then 0
      else
        (network_results_median - network_challenge_config.ideal_milliseconds) * (50 - 0) /
          (network_challenge_config.max_milliseconds -
            network_challenge_config.ideal_milliseconds)
    100 - (cpu_score + network_score)

/-- The per-dimension partial computed inside `calculate_score`. -/
def dimension_score (mean ideal_ms max_ms : ℕ) : ℕ :=
  if mean < ideal_ms then 0 else (mean - ideal_ms) * (50 - 0) / (max_ms - ideal_ms)

theorem calculate_score_eq (cc : CPUChallengeConfiguration) (cpu : List ℕ)
    (nc : NetworkChallengeConfiguration) (net : List ℕ)
    (h1 : ∀ x ∈ cpu, x ≤ cc.max_milliseconds) (h2 : ∀ x ∈ net, x ≤ nc.max_milliseconds) :
    calculate_score cc cpu nc net =
      100 - (dimension_score (find_mean cpu) cc.ideal_milliseconds cc.max_milliseconds +
        dimension_score (find_mean net) nc.ideal_milliseconds nc.max_milliseconds) := by
  have hc : cpu.any (fun r => decide (cc.max_milliseconds < r)) = false := by
    simp only [List.any_eq_false, decide_eq_true_eq]
    intro x hx
    exact not_lt.mpr (h1 x hx)
  have hn : net.any (fun r => decide (nc.max_milliseconds < r)) = false := by
    simp only [List.any_eq_false, decide_eq_true_eq]
    intro x hx
    exact not_lt.mpr (h2 x hx)
  simp only [calculate_score, hc, hn, Bool.false_eq_true, if_false, dimension_score]

theorem find_mean_le (l : List ℕ) (m : ℕ) (hne : l ≠ []) (h : ∀ x ∈ l, x ≤ m) :
    find_mean l ≤ m := by
  have hlen : 0 < l.length := List.length_pos.mpr hne
  have hsum : l.sum ≤ l.length * m := by
    calc l.sum ≤ l.length • m := List.sum_le_card_nsmul l m h
    _ = l.length * m := by simp
  calc find_mean l = l.sum / l.length := rfl
  _ ≤ l.length * m / l.length := Nat.div_le_div_right hsum
  _ = m := Nat.mul_div_cancel_left m hlen

theorem find_mean_const (l : List ℕ) (m : ℕ) (hne : l ≠ []) (h : ∀ x ∈ l, x = m) :
    find_mean l = m := by
  have hlen : 0 < l.length := List.length_pos.mpr hne
  have hsum : l.sum = l.length * m := by
    calc l.sum = l.length • m := List.sum_eq_card_nsmul l m h
    _ = l.length * m := by simp
  simp only [find_mean, hsum]
  exact Nat.mul_div_cancel_left m hlen

theorem dimension_score_le (mean ideal_ms max_ms : ℕ) (hm : mean ≤ max_ms)
    (hi : ideal_ms < max_ms) : dimension_score mean ideal_ms max_ms ≤ 50 := by
  unfold dimension_score
  split
  · exact Nat.zero_le 50
  · have hd : 0 < max_ms - ideal_ms := by omega
    calc (mean - ideal_ms) * (50 - 0) / (max_ms - ideal_ms)
        ≤ (max_ms - ideal_ms) * (50 - 0) / (max_ms - ideal_ms) :=
          Nat.div_le_div_right (Nat.mul_le_mul_right _ (by omega))
    _ = 50 - 0 := Nat.mul_div_cancel_left _ hd
    _ ≤ 50 := by omega

theorem dimension_score_eq_fifty_iff (mean ideal_ms max_ms : ℕ) (hm : mean ≤ max_ms)
    (hi : ideal_ms < max_ms) :
    dimension_score mean ideal_ms max_ms = 50 ↔ mean = max_ms := by
  unfold dimension_score
  split
  · constructor
    · intro h; omega
    · intro h; omega
  · rename_i hge
    have hd : 0 < max_ms - ideal_ms := by omega
    constructor
    · intro h
      have h50 : 50 ≤ (mean - ideal_ms) * (50 - 0) / (max_ms - ideal_ms) := h.ge
      have := (Nat.le_div_iff_mul_le hd).mp h50
      omega
    · intro h
      subst h
      calc (mean - ideal_ms) * (50 - 0) / (mean - ideal_ms) = 50 - 0 :=
            Nat.mul_div_cancel_left _ hd
      _ = 50 := rfl

/-- C2: scorer boundary values — with cpu config (ideal 100, max 1100) and network
config (ideal 200, max 2200), `calculate_score` returns 85, 0, 95 and 0 on the four
listed timing-vector pairs, and 100 whenever every timing equals its ideal. -/
theorem scorer_boundary_values (cpu net : List ℕ) (hc : cpu ≠ []) (hn : net ≠ [])
    (hca : ∀ x ∈ cpu, x = 100) (hna : ∀ x ∈ net, x = 200) :
    calculate_score ⟨0, 100, 1100⟩ [200, 300, 200, 500] ⟨0, 200, 2200⟩ [300, 400, 300, 600] = 85 ∧
    calculate_score ⟨0, 100, 1100⟩ [1200, 300, 200, 500] ⟨0, 200, 2200⟩ [300, 400, 300, 600] = 0 ∧
    calculate_score ⟨0, 100, 1100⟩ [1, 2, 3, 4] ⟨0, 200, 2200⟩ [300, 400, 300, 600] = 95 ∧
    calculate_score ⟨0, 100, 1100⟩ [1100, 1100, 1100, 1100] ⟨0, 200, 2200⟩
      [2200, 2200, 2200, 2200] = 0 ∧
    calculate_score ⟨0, 100, 1100⟩ cpu ⟨0, 200, 2200⟩ net = 100 := by
  refine ⟨by decide, by decide, by decide, by decide, ?_⟩
  have h1 : ∀ x ∈ cpu, x ≤ (⟨0, 100, 1100⟩ : CPUChallengeConfiguration).max_milliseconds := by
    intro x hx; rw [hca x hx]; norm_num
  have h2 : ∀ x ∈ net, x ≤ (⟨0, 200, 2200⟩ : NetworkChallengeConfiguration).max_milliseconds := by
    intro x hx; rw [hna x hx]; norm_num
  rw [calculate_score_eq _ _ _ _ h1 h2, find_mean_const cpu 100 hc hca,
    find_mean_const net 200 hn hna]
  decide

/-- C2 witness: the all-ideal case at concrete one-element vectors. -/
theorem scorer_boundary_values_witness :
    ([100] : List ℕ) ≠ [] ∧ ([200] : List ℕ) ≠ [] ∧
    (∀ x ∈ ([100] : List ℕ), x = 100) ∧ (∀ x ∈ ([200] : List ℕ), x = 200) ∧
    calculate_score ⟨0, 100, 1100⟩ [100] ⟨0, 200, 2200⟩ [200] = 100 :=
  ⟨by decide, by decide, by decide, by decide,
    (scorer_boundary_values [100] [200] (by decide) (by decide) (by decide) (by decide)).2.2.2.2⟩

/-- C4: when no timing exceeds its max and ideal < max on both axes, each
dimension partial is at most 50, their sum is at most 100 (so the final `u128`
subtraction `100 - (cpu_score + network_score)` cannot underflow: score plus
partials is exactly 100), and the returned score is at most 100. -/
theorem scorer_partials_bounded (cc : CPUChallengeConfiguration)
    (nc : NetworkChallengeConfiguration) (cpu net : List ℕ) (hc : cpu ≠ []) (hn : net ≠ [])
    (hcb : ∀ x ∈ cpu, x ≤ cc.max_milliseconds) (hnb : ∀ x ∈ net, x ≤ nc.max_milliseconds)
    (hci : cc.ideal_milliseconds < cc.max_milliseconds)
    (hni : nc.ideal_milliseconds < nc.max_milliseconds) :
    dimension_score (find_mean cpu) cc.ideal_milliseconds cc.max_milliseconds ≤ 50 ∧
    dimension_score (find_mean net) nc.ideal_milliseconds nc.max_milliseconds ≤ 50 ∧
    dimension_score (find_mean cpu) cc.ideal_milliseconds cc.max_milliseconds +
      dimension_score (find_mean net) nc.ideal_milliseconds nc.max_milliseconds ≤ 100 ∧
    calculate_score cc cpu nc net +
      (dimension_score (find_mean cpu) cc.ideal_milliseconds cc.max_milliseconds +
        dimension_score (find_mean net) nc.ideal_milliseconds nc.max_milliseconds) = 100 ∧
    calculate_score cc cpu nc net ≤ 100 := by
  have hmc : find_mean cpu ≤ cc.max_milliseconds := find_mean_le cpu _ hc hcb
  have hmn : find_mean net ≤ nc.max_milliseconds := find_mean_le net _ hn hnb
  have hd1 := dimension_score_le (find_mean cpu) cc.ideal_milliseconds cc.max_milliseconds hmc hci
  have hd2 := dimension_score_le (find_mean net) nc.ideal_milliseconds nc.max_milliseconds hmn hni
  have heq := calculate_score_eq cc cpu nc net hcb hnb
  exact ⟨hd1, hd2, by omega, by omega, by omega⟩

/-- C4 witness: concrete vectors inside the bounds. -/
theorem scorer_partials_bounded_witness :
    ([200] : List ℕ) ≠ [] ∧ ([300] : List ℕ) ≠ [] ∧
    (∀ x ∈ ([200] : List ℕ), x ≤ 1100) ∧ (∀ x ∈ ([300] : List ℕ), x ≤ 2200) ∧
    (100 : ℕ) < 1100 ∧ (200 : ℕ) < 2200 ∧
    calculate_score ⟨0, 100, 1100⟩ [200] ⟨0, 200, 2200⟩ [300] ≤ 100 :=
  ⟨by decide, by decide, by decide, by decide, by decide, by decide,
    (scorer_partials_bounded ⟨0, 100, 1100⟩ ⟨0, 200, 2200⟩ [200] [300] (by decide) (by decide)
      (by decide) (by decide) (by decide) (by decide)).2.2.2.2⟩

/-- C3 counterexample: every timing equals (does not exceed) its max, the step-1
rejection does not fire, the vectors are non-empty and ideal < max, yet the
computed score is 0 — so 0 is not returned only on hard rejection. -/
theorem score_zero_without_rejection :
    (∀ x ∈ ([1100, 1100, 1100, 1100] : List ℕ), x ≤ 1100) ∧
    (∀ x ∈ ([2200, 2200, 2200, 2200] : List ℕ), x ≤ 2200) ∧
    ([1100, 1100, 1100, 1100] : List ℕ) ≠ [] ∧ ([2200, 2200, 2200, 2200] : List ℕ) ≠ [] ∧
    (100 : ℕ) < 1100 ∧ (200 : ℕ) < 2200 ∧
    ([1100, 1100, 1100, 1100] : List ℕ).any (fun r => decide (1100 < r)) = false ∧
    ([2200, 2200, 2200, 2200] : List ℕ).any (fun r => decide (2200 < r)) = false ∧
    calculate_score ⟨0, 100, 1100⟩ [1100, 1100, 1100, 1100] ⟨0, 200, 2200⟩
      [2200, 2200, 2200, 2200] = 0 := by
  decide

/-- C3 (amended): with non-empty vectors, no timing above max and ideal < max,
`calculate_score` returns 0 if and only if both means sit exactly at their
`max_milliseconds`; in every other non-rejected case the score is strictly
positive. -/
theorem score_zero_iff_both_means_at_max (cc : CPUChallengeConfiguration)
    (nc : NetworkChallengeConfiguration) (cpu net : List ℕ) (hc : cpu ≠ []) (hn : net ≠ [])
    (hcb : ∀ x ∈ cpu, x ≤ cc.max_milliseconds) (hnb : ∀ x ∈ net, x ≤ nc.max_milliseconds)
    (hci : cc.ideal_milliseconds < cc.max_milliseconds)
    (hni : nc.ideal_milliseconds < nc.max_milliseconds) :
    (calculate_score cc cpu nc net = 0 ↔
      find_mean cpu = cc.max_milliseconds ∧ find_mean net = nc.max_milliseconds) ∧
    ((find_mean cpu ≠ cc.max_milliseconds ∨ find_mean net ≠ nc.max_milliseconds) →
      0 < calculate_score cc cpu nc net) := by
  have hmc : find_mean cpu ≤ cc.max_milliseconds := find_mean_le cpu _ hc hcb
  have hmn : find_mean net ≤ nc.max_milliseconds := find_mean_le net _ hn hnb
  have hd1 := dimension_score_le (find_mean cpu) cc.ideal_milliseconds cc.max_milliseconds hmc hci
  have hd2 := dimension_score_le (find_mean net) nc.ideal_milliseconds nc.max_milliseconds hmn hni
  have hf1 := dimension_score_eq_fifty_iff (find_mean cpu) cc.ideal_milliseconds
    cc.max_milliseconds hmc hci
  have hf2 := dimension_score_eq_fifty_iff (find_mean net) nc.ideal_milliseconds
    nc.max_milliseconds hmn hni
  have heq := calculate_score_eq cc cpu nc net hcb hnb
  constructor
  · constructor
    · intro h0
      have hs : dimension_score (find_mean cpu) cc.ideal_milliseconds cc.max_milliseconds = 50 ∧
          dimension_score (find_mean net) nc.ideal_milliseconds nc.max_milliseconds = 50 := by
        omega
      exact ⟨hf1.mp hs.1, hf2.mp hs.2⟩
    · intro ⟨h1, h2⟩
      have := hf1.mpr h1
      have := hf2.mpr h2
      omega
  · intro hne
    have : ¬ (dimension_score (find_mean cpu) cc.ideal_milliseconds cc.max_milliseconds = 50 ∧
        dimension_score (find_mean net) nc.ideal_milliseconds nc.max_milliseconds = 50) := by
      rcases hne with h | h
      · exact fun hand => h (hf1.mp hand.1)
      · exact fun hand => h (hf2.mp hand.2)
    omega

/-- C3 witness: a non-rejected pair whose means are below max scores positively. -/
theorem score_zero_iff_both_means_at_max_witness :
    (∀ x ∈ ([200, 300, 200, 500] : List ℕ), x ≤ 1100) ∧
    (∀ x ∈ ([300, 400, 300, 600] : List ℕ), x ≤ 2200) ∧
    find_mean [200, 300, 200, 500] ≠ 1100 ∧
    0 < calculate_score ⟨0, 100, 1100⟩ [200, 300, 200, 500] ⟨0, 200, 2200⟩ [300, 400, 300, 600] :=
  ⟨by decide, by decide, by decide,
    (score_zero_iff_both_means_at_max ⟨0, 100, 1100⟩ ⟨0, 200, 2200⟩ [200, 300, 200, 500]
      [300, 400, 300, 600] (by decide) (by decide) (by decide) (by decide) (by decide)
      (by decide)).2 (Or.inl (by decide))⟩

/-! ## Time-lock puzzle (src/shared/src/challenges/timelock.rs) -/

structure Timelock where
  a : ℕ
  n : ℕ
  squarings : ℕ
  deriving DecidableEq

structure TimelockVerifier where
  answer : ℕ
  deriving DecidableEq

/-- Embedding of `Timelock::perform_challenge`: `a.modpow(2^squarings, n)`. -/
def Timelock.perform_challenge (t : Timelock) : ℕ := t.a ^ (2 ^ t.squarings) % t.n

/-- Embedding of `TimelockVerifier::verify`: equality with the stored answer. -/
def TimelockVerifier.verify (v : TimelockVerifier) (client_response : ℕ) : Bool :=
  v.answer == client_response

/-- Embedding of `Timelock::generate`, with the RNG draws — the two 128-bit
primes `p`, `q` and the 160-bit base `a` — passed as parameters. -/
def Timelock.generate (p q a squarings : ℕ) : Timelock × TimelockVerifier :=
  let phi := (p - 1) * (q - 1)
  let n := p * q
  let e := 2 ^ squarings % phi
  let answer := a ^ e % n
  (⟨a, n, squarings⟩, ⟨answer⟩)

theorem prime_pow_congr (p a e r t : ℕ) (hp : Nat.Prime p) (he : e = r + (p - 1) * t)
    (hr : 1 ≤ r) : a ^ e ≡ a ^ r [MOD p] := by
  by_cases hdvd : p ∣ a
  · have h1 : p ∣ a ^ e := dvd_pow hdvd (by omega)
    have h2 : p ∣ a ^ r := dvd_pow hdvd (by omega)
    exact (Nat.modEq_zero_iff_dvd.mpr h1).trans (Nat.modEq_zero_iff_dvd.mpr h2).symm
  · have hco : Nat.Coprime a p := Nat.coprime_comm.mp ((Nat.Prime.coprime_iff_not_dvd hp).mpr hdvd)
    have heu : a ^ (p - 1) ≡ 1 [MOD p] := by
      have h := Nat.ModEq.pow_totient hco
      rwa [Nat.totient_prime hp] at h
    calc a ^ e = a ^ r * (a ^ (p - 1)) ^ t := by rw [he, pow_add, pow_mul]
    _ ≡ a ^ r * 1 ^ t [MOD p] := Nat.ModEq.mul (Nat.ModEq.refl _) (heu.pow t)
    _ = a ^ r := by rw [one_pow, mul_one]

theorem not_128bit_fermat (p : ℕ) (hp : Nat.Prime p) (hpl : 2 ^ 127 ≤ p) (hpu : p < 2 ^ 128)
    (i : ℕ) (hieq : p - 1 = 2 ^ i) : False := by
  have h2 : 2 ≤ p := hp.two_le
  have hil : 127 ≤ i := by
    by_contra h
    push_neg at h
    have hle : (2 : ℕ) ^ i ≤ 2 ^ 126 := Nat.pow_le_pow_right (by norm_num) (by omega)
    have hpow : (2 : ℕ) ^ 127 = 2 ^ 126 * 2 := by rw [pow_succ]
    have hone : 1 ≤ (2 : ℕ) ^ 126 := Nat.one_le_two_pow
    omega
  have hiu : i ≤ 127 := by
    by_contra h
    push_neg at h
    have hle : (2 : ℕ) ^ 128 ≤ 2 ^ i := Nat.pow_le_pow_right (by norm_num) (by omega)
    omega
  have hieq' : i = 127 := le_antisymm hiu hil
  subst hieq'
  have hp3 : p = 2 ^ 127 + 1 := by omega
  have h3 : (3 : ℕ) ∣ p := by
    rw [hp3]
    exact ⟨56713727820156410577229101238628035243, by norm_num⟩
  rcases hp.eq_one_or_self_of_dvd 3 h3 with h | h
  · omega
  · rw [← h] at hpl
    norm_num at hpl

/-- C1 (amended): the time-lock trapdoor is correct whenever the two generated
128-bit primes are distinct — for `squarings ≥ 1` the client computation
`a^(2^squarings) mod n` equals the verifier answer `a^(2^squarings mod phi) mod n`,
and `verify` accepts it. -/
theorem timelock_trapdoor_correct (p q a s : ℕ) (hp : Nat.Prime p) (hq : Nat.Prime q)
    (hpq : p ≠ q) (hpl : 2 ^ 127 ≤ p) (hpu : p < 2 ^ 128) (hql : 2 ^ 127 ≤ q)
    (hqu : q < 2 ^ 128) (hs : 1 ≤ s) :
    (Timelock.generate p q a s).1.perform_challenge = (Timelock.generate p q a s).2.answer ∧
    (Timelock.generate p q a s).2.verify ((Timelock.generate p q a s).1.perform_challenge) =
      true := by
  have hp2 := hp.two_le
  have hq2 := hq.two_le
  have hφpos : 0 < (p - 1) * (q - 1) := Nat.mul_pos (by omega) (by omega)
  have hnotdvd : ¬ (p - 1) * (q - 1) ∣ 2 ^ s := by
    intro hdvd
    have hpd : (p - 1) ∣ 2 ^ s := dvd_trans (dvd_mul_right _ _) hdvd
    obtain ⟨i, _, hieq⟩ := (Nat.dvd_prime_pow Nat.prime_two).mp hpd
    exact not_128bit_fermat p hp hpl hpu i hieq
  have hr1 : 1 ≤ 2 ^ s % ((p - 1) * (q - 1)) := by
    rcases Nat.eq_zero_or_pos (2 ^ s % ((p - 1) * (q - 1))) with h0 | h
    · exact absurd (Nat.dvd_of_mod_eq_zero h0) hnotdvd
    · exact h
  have hrle : 2 ^ s % ((p - 1) * (q - 1)) ≤ 2 ^ s := Nat.mod_le _ _
  have hdm := Nat.div_add_mod (2 ^ s) ((p - 1) * (q - 1))
  have hsub : 2 ^ s = 2 ^ s % ((p - 1) * (q - 1)) +
      (p - 1) * (q - 1) * (2 ^ s / ((p - 1) * (q - 1))) := by omega
  have hpcong : a ^ (2 ^ s) ≡ a ^ (2 ^ s % ((p - 1) * (q - 1))) [MOD p] := by
    apply prime_pow_congr p a _ _ ((q - 1) * (2 ^ s / ((p - 1) * (q - 1)))) hp _ hr1
    conv_lhs => rw [hsub]
    ring
  have hqcong : a ^ (2 ^ s) ≡ a ^ (2 ^ s % ((p - 1) * (q - 1))) [MOD q] := by
    apply prime_pow_congr q a _ _ ((p - 1) * (2 ^ s / ((p - 1) * (q - 1)))) hq _ hr1
    conv_lhs => rw [hsub]
    ring
  have hco : Nat.Coprime p q := (Nat.coprime_primes hp hq).mpr hpq
  have hmul : a ^ (2 ^ s) ≡ a ^ (2 ^ s % ((p - 1) * (q - 1))) [MOD p * q] :=
    (Nat.modEq_and_modEq_iff_modEq_mul hco).mp ⟨hpcong, hqcong⟩
  have hmain : (Timelock.generate p q a s).1.perform_challenge =
      (Timelock.generate p q a s).2.answer := hmul
  refine ⟨hmain, ?_⟩
  simp only [TimelockVerifier.verify, hmain, beq_self_eq_true]

set_option maxRecDepth 10000

/-- Kernel-computable binary modular exponentiation (fuel-structural so that
concrete instances reduce). -/
def powModFuel : ℕ → ℕ → ℕ → ℕ → ℕ
  | 0, _, _, n => 1 % n
  | fuel + 1, a, e, n =>
    if e = 0 then 1 % n
    else
      let h := powModFuel fuel a (e / 2) n
      if e % 2 = 0 then h * h % n else h * h % n * (a % n) % n

theorem powModFuel_eq (fuel : ℕ) : ∀ (a e n : ℕ), e < 2 ^ fuel →
    powModFuel fuel a e n = a ^ e % n := by
  induction fuel with
  | zero =>
    intro a e n he
    have h0 : e = 0 := by
      have : e < 1 := by simpa using he
      omega
    subst h0
    simp [powModFuel]
  | succ f ih =>
    intro a e n he
    by_cases h0 : e = 0
    · subst h0; simp [powModFuel]
    · have hlt : e / 2 < 2 ^ f := by
        have h2 : (2 : ℕ) ^ (f + 1) = 2 ^ f * 2 := by rw [pow_succ]
        omega
      have hrec := ih a (e / 2) n hlt
      rcases Nat.even_or_odd e with he2 | ho2
      · have hmod : e % 2 = 0 := Nat.even_iff.mp he2
        have hsplit : e / 2 + e / 2 = e := by omega
        simp only [powModFuel, h0, if_false, hmod, if_true, eq_self_iff_true]
        rw [hrec, ← Nat.mul_mod, ← pow_add, hsplit]
      · have hmod : e % 2 = 1 := Nat.odd_iff.mp ho2
        have hsplit : e / 2 + e / 2 + 1 = e := by omega
        simp only [powModFuel, h0, if_false, hmod, one_ne_zero, if_false]
        rw [hrec]
        have h1 : a ^ (e / 2) % n * (a ^ (e / 2) % n) % n = a ^ (e / 2) * a ^ (e / 2) % n :=
          (Nat.mul_mod _ _ _).symm
        have h2 : a ^ (e / 2) * a ^ (e / 2) % n * (a % n) % n =
            a ^ (e / 2) * a ^ (e / 2) * a % n := (Nat.mul_mod _ _ _).symm
        rw [h1, h2, ← pow_add, ← pow_succ, hsplit]

theorem zmod_pow_natCast (P w e c f : ℕ) (he : e < 2 ^ f) (hc : powModFuel f w e P = c) :
    ((w : ℕ) : ZMod P) ^ e = ((c : ℕ) : ZMod P) := by
  have h1 : ((w : ℕ) : ZMod P) ^ e = ((w ^ e : ℕ) : ZMod P) := (Nat.cast_pow w e).symm
  rw [h1, ← ZMod.natCast_mod (w ^ e) P, ← powModFuel_eq f w e P he, hc]

theorem natCast_ne_one_of_mod (P c : ℕ) (h : ¬ c % P = 1 % P) : ((c : ℕ) : ZMod P) ≠ 1 := by
  intro heq
  rw [← Nat.cast_one, ZMod.natCast_eq_natCast_iff'] at heq
  exact h heq

/-- A 128-bit prime: `859 * 2 ^ 118 + 1`. -/
def prime128A : ℕ := 285451712094810683706092566195203997697

/-- A second, distinct 128-bit prime: `131113 * 2 ^ 110 + 1`. -/
def prime128B : ℕ := 170194404503269213714879741303258611713

theorem prime128A_prime : Nat.Prime prime128A := by
  apply lucas_primality prime128A ((3 : ℕ) : ZMod prime128A)
  · rw [zmod_pow_natCast prime128A 3 (prime128A - 1) 1 128 (by norm_num [prime128A])
      (by decide)]
    exact Nat.cast_one
  · intro q hq hdvd
    have hA : prime128A - 1 = 859 * 2 ^ 118 := by norm_num [prime128A]
    rw [hA] at hdvd
    rcases (Nat.Prime.dvd_mul hq).mp hdvd with h | h
    · have hq859 : q = 859 := (Nat.prime_dvd_prime_iff_eq hq (by norm_num)).mp h
      subst hq859
      rw [zmod_pow_natCast prime128A 3 ((prime128A - 1) / 859)
        (powModFuel 128 3 ((prime128A - 1) / 859) prime128A) 128 (by norm_num [prime128A]) rfl]
      exact natCast_ne_one_of_mod _ _ (by decide)
    · have hq2 : q = 2 := (Nat.prime_dvd_prime_iff_eq hq Nat.prime_two).mp (hq.dvd_of_dvd_pow h)
      subst hq2
      rw [zmod_pow_natCast prime128A 3 ((prime128A - 1) / 2)
        (powModFuel 128 3 ((prime128A - 1) / 2) prime128A) 128 (by norm_num [prime128A]) rfl]
      exact natCast_ne_one_of_mod _ _ (by decide)

theorem prime128B_prime : Nat.Prime prime128B := by
  apply lucas_primality prime128B ((3 : ℕ) : ZMod prime128B)
  · rw [zmod_pow_natCast prime128B 3 (prime128B - 1) 1 128 (by norm_num [prime128B])
      (by decide)]
    exact Nat.cast_one
  · intro q hq hdvd
    have hB : prime128B - 1 = 131113 * 2 ^ 110 := by norm_num [prime128B]
    rw [hB] at hdvd
    rcases (Nat.Prime.dvd_mul hq).mp hdvd with h | h
    · have hqk : q = 131113 := (Nat.prime_dvd_prime_iff_eq hq (by norm_num)).mp h
      subst hqk
      rw [zmod_pow_natCast prime128B 3 ((prime128B - 1) / 131113)
        (powModFuel 128 3 ((prime128B - 1) / 131113) prime128B) 128 (by norm_num [prime128B]) rfl]
      exact natCast_ne_one_of_mod _ _ (by decide)
    · have hq2 : q = 2 := (Nat.prime_dvd_prime_iff_eq hq Nat.prime_two).mp (hq.dvd_of_dvd_pow h)
      subst hq2
      rw [zmod_pow_natCast prime128B 3 ((prime128B - 1) / 2)
        (powModFuel 128 3 ((prime128B - 1) / 2) prime128B) 128 (by norm_num [prime128B]) rfl]
      exact natCast_ne_one_of_mod _ _ (by decide)

theorem generate_perform_eq (p q a s f : ℕ) (hf : 2 ^ s < 2 ^ f) :
    (Timelock.generate p q a s).1.perform_challenge = powModFuel f a (2 ^ s) (p * q) := by
  simp only [Timelock.generate, Timelock.perform_challenge]
  rw [powModFuel_eq f a (2 ^ s) (p * q) hf]

theorem generate_answer_eq (p q a s f : ℕ)
    (hf : 2 ^ s % ((p - 1) * (q - 1)) < 2 ^ f) :
    (Timelock.generate p q a s).2.answer =
      powModFuel f a (2 ^ s % ((p - 1) * (q - 1))) (p * q) := by
  simp only [Timelock.generate]
  rw [powModFuel_eq f a _ (p * q) hf]

/-- C1 counterexample: `Timelock::generate` draws its two 128-bit primes
independently and never compares them, so the pair `p = q = prime128A` (with the
160-bit base `prime128A + 1` and `squarings = 256 ≥ 1`) is a producible output —
and on it the client computation `a^(2^squarings) mod n` differs from the
verifier's answer, so `verify` rejects the honest solution. -/
theorem timelock_equal_primes_counterexample :
    Nat.Prime prime128A ∧ 2 ^ 127 ≤ prime128A ∧ prime128A < 2 ^ 128 ∧
    prime128A + 1 < 2 ^ 160 ∧ 1 ≤ 256 ∧
    (Timelock.generate prime128A prime128A (prime128A + 1) 256).1.perform_challenge ≠
      (Timelock.generate prime128A prime128A (prime128A + 1) 256).2.answer ∧
    (Timelock.generate prime128A prime128A (prime128A + 1) 256).2.verify
      ((Timelock.generate prime128A prime128A (prime128A + 1) 256).1.perform_challenge) =
      false := by
  have hbound : 2 ^ 256 % ((prime128A - 1) * (prime128A - 1)) < 2 ^ 256 :=
    lt_of_lt_of_le (Nat.mod_lt _ (by norm_num [prime128A])) (by norm_num [prime128A])
  have h1 := generate_perform_eq prime128A prime128A (prime128A + 1) 256 257 (by norm_num)
  have h2 := generate_answer_eq prime128A prime128A (prime128A + 1) 256 256 hbound
  have hne : (Timelock.generate prime128A prime128A (prime128A + 1) 256).1.perform_challenge ≠
      (Timelock.generate prime128A prime128A (prime128A + 1) 256).2.answer := by
    rw [h1, h2]
    decide
  refine ⟨prime128A_prime, by norm_num [prime128A], by norm_num [prime128A],
    by norm_num [prime128A], by norm_num, hne, ?_⟩
  simp only [TimelockVerifier.verify]
  exact beq_eq_false_iff_ne.mpr fun h => hne h.symm

/-- C1 witness: the amended theorem applied to the two concrete distinct
128-bit primes, base 5 and one squaring. -/
theorem timelock_trapdoor_correct_witness :
    Nat.Prime prime128A ∧ Nat.Prime prime128B ∧ prime128A ≠ prime128B ∧
    2 ^ 127 ≤ prime128A ∧ prime128A < 2 ^ 128 ∧ 2 ^ 127 ≤ prime128B ∧ prime128B < 2 ^ 128 ∧
    1 ≤ 1 ∧
    (Timelock.generate prime128A prime128B 5 1).1.perform_challenge =
      (Timelock.generate prime128A prime128B 5 1).2.answer :=
  ⟨prime128A_prime, prime128B_prime, by norm_num [prime128A, prime128B],
    by norm_num [prime128A], by norm_num [prime128A], by norm_num [prime128B],
    by norm_num [prime128B], le_refl 1,
    (timelock_trapdoor_correct prime128A prime128B 5 1 prime128A_prime prime128B_prime
      (by norm_num [prime128A, prime128B]) (by norm_num [prime128A]) (by norm_num [prime128A])
      (by norm_num [prime128B]) (by norm_num [prime128B]) (le_refl 1)).1⟩

/-! ## Time-lock wire format (src/shared/src/challenges/timelock.rs) -/

/-- Big-endian value of a byte list (the fold num_bigint uses for
`from_bytes_be`). -/
def beVal (l : List ℕ) : ℕ := l.foldl (fun acc b => acc * 256 + b) 0

/-- Embedding of `BigUint::from_bytes_be`. -/
def from_bytes_be (l : List ℕ) : ℕ := beVal l

/-- Little-endian base-256 digits of `v` (fuel-structural so that concrete
instances reduce; any fuel at least `v` is enough). -/
def toBytesAux : ℕ → ℕ → List ℕ
  | 0, _ => []
  | fuel + 1, v => if v = 0 then [] else v % 256 :: toBytesAux fuel (v / 256)

/-- Embedding of `BigUint::to_bytes_be`: minimal big-endian byte encoding,
with zero encoded as the single byte 0. -/
def to_bytes_be (x : ℕ) : List ℕ := if x = 0 then [0] else (toBytesAux x x).reverse

/-- Embedding of `NetworkEndian::write_uN`: `width` big-endian bytes of `v`. -/
def writeBE : ℕ → ℕ → List ℕ
  | 0, _ => []
  | width + 1, v => writeBE width (v / 256) ++ [v % 256]

/-- Embedding of `NetworkEndian::read_uN(&data[cursor..])`: big-endian value of
the `width` bytes at `cursor`. -/
def readBE (data : List ℕ) (cursor width : ℕ) : ℕ := beVal ((data.drop cursor).take width)

/-- Embedding of `Timelock::to_wire`:
`[u64 len_a][a_bytes][u64 len_n][n_bytes][u32 squarings]`. -/
def Timelock.to_wire (t : Timelock) : List ℕ :=
  let a_bytes := to_bytes_be t.a
  let n_bytes := to_bytes_be t.n
  writeBE 8 a_bytes.length ++ a_bytes ++ writeBE 8 n_bytes.length ++ n_bytes ++
    writeBE 4 t.squarings

/-- Outcome of `Timelock::from_wire`: success, one of its two `anyhow` errors,
or an out-of-bounds slice read (a Rust index panic inside `byteorder`). -/
inductive FromWireResult
  | ok (t : Timelock)
  | parsingError
  | unexpectedDataError
  | sliceOob
  deriving DecidableEq

/-- Embedding of `Timelock::from_wire`, cursor arithmetic inlined.  Each
unguarded 8- or 4-byte read panics (`sliceOob`) when fewer bytes remain; the
declared-length checks fail with `parsingError`; the final exact-length check
fails with `unexpectedDataError`. -/
def Timelock.from_wire (data : List ℕ) : FromWireResult :=
  if data.length < 8 then .sliceOob
  else
    let a_bytes_length := readBE data 0 8
    if a_bytes_length > data.length - 8 then .parsingError
    else
      let a_bytes := (data.drop 8).take a_bytes_length
      if data.length - (8 + a_bytes_length) < 8 then .sliceOob
      else
        let n_bytes_length := readBE data (8 + a_bytes_length) 8
        if n_bytes_length > data.length - (8 + a_bytes_length + 8) then .parsingError
        else
          let n_bytes := (data.drop (8 + a_bytes_length + 8)).take n_bytes_length
          if data.length - (8 + a_bytes_length + 8 + n_bytes_length) < 4 then .sliceOob
          else
            let squaring := readBE data (8 + a_bytes_length + 8 + n_bytes_length) 4
            if 8 + a_bytes_length + 8 + n_bytes_length + 4 ≠ data.length then
              .unexpectedDataError
            else .ok ⟨from_bytes_be a_bytes, from_bytes_be n_bytes, squaring⟩

theorem beVal_aux (l : List ℕ) : ∀ acc : ℕ,
    List.foldl (fun acc b => acc * 256 + b) acc l =
      acc * 256 ^ l.length + Nat.ofDigits 256 l.reverse := by
  induction l with
  | nil => intro acc; simp [Nat.ofDigits]
  | cons b t ih =>
    intro acc
    simp only [List.foldl_cons, List.length_cons, List.reverse_cons]
    rw [ih (acc * 256 + b), Nat.ofDigits_append, Nat.ofDigits_singleton, List.length_reverse]
    ring

theorem beVal_eq_ofDigits (l : List ℕ) : beVal l = Nat.ofDigits 256 l.reverse := by
  have h := beVal_aux l 0
  simpa [beVal] using h

theorem ofDigits_toBytesAux : ∀ fuel v : ℕ, v ≤ fuel →
    Nat.ofDigits 256 (toBytesAux fuel v) = v := by
  intro fuel
  induction fuel with
  | zero =>
    intro v hv
    have h0 : v = 0 := by omega
    subst h0
    simp [toBytesAux, Nat.ofDigits]
  | succ f ih =>
    intro v hv
    by_cases h0 : v = 0
    · subst h0; simp [toBytesAux, Nat.ofDigits]
    · have hdiv : v / 256 ≤ f := by
        have : v / 256 < v := Nat.div_lt_self (by omega) (by norm_num)
        omega
      simp only [toBytesAux, h0, if_false, Nat.ofDigits_cons, ih (v / 256) hdiv]
      omega

theorem from_to_bytes_be (x : ℕ) : from_bytes_be (to_bytes_be x) = x := by
  unfold from_bytes_be to_bytes_be
  by_cases h0 : x = 0
  · subst h0; decide
  · rw [if_neg h0, beVal_eq_ofDigits, List.reverse_reverse,
      ofDigits_toBytesAux x x (le_refl x)]

theorem length_writeBE (width : ℕ) : ∀ v, (writeBE width v).length = width := by
  induction width with
  | zero => intro v; rfl
  | succ w ih => intro v; simp [writeBE, ih]

theorem ofDigits_rev_writeBE (width : ℕ) : ∀ v,
    Nat.ofDigits 256 (writeBE width v).reverse = v % 256 ^ width := by
  induction width with
  | zero => intro v; simp [writeBE, Nat.ofDigits, Nat.mod_one]
  | succ w ih =>
    intro v
    simp only [writeBE, List.reverse_append, List.reverse_singleton, List.singleton_append,
      Nat.ofDigits_cons, ih (v / 256)]
    conv_rhs => rw [pow_succ']
    rw [Nat.mod_mul]

theorem beVal_writeBE (width v : ℕ) : beVal (writeBE width v) = v % 256 ^ width := by
  rw [beVal_eq_ofDigits, ofDigits_rev_writeBE]

theorem writeBE_eight (v : ℕ) (h : v < 2 ^ 64) : beVal (writeBE 8 v) = v := by
  rw [beVal_writeBE]
  exact Nat.mod_eq_of_lt (by norm_num at h ⊢; omega)

theorem writeBE_four (v : ℕ) (h : v < 2 ^ 32) : beVal (writeBE 4 v) = v := by
  rw [beVal_writeBE]
  exact Nat.mod_eq_of_lt (by norm_num at h ⊢; omega)

theorem take_append_len (l1 l2 : List ℕ) (w : ℕ) (hw : l1.length = w) :
    (l1 ++ l2).take w = l1 := by
  rw [← hw]
  exact List.take_left l1 l2

theorem drop_append_len (l1 l2 : List ℕ) (w : ℕ) (hw : l1.length = w) :
    (l1 ++ l2).drop w = l2 := by
  rw [← hw]
  exact List.drop_left l1 l2

theorem readBE_append (l1 l2 : List ℕ) (c w : ℕ) (h : c + w ≤ l1.length) :
    readBE (l1 ++ l2) c w = readBE l1 c w := by
  simp only [readBE]
  congr 1
  rw [List.drop_append_eq_append_drop, List.take_append_eq_append_take, List.length_drop]
  have hz : w - (l1.length - c) = 0 := by omega
  rw [hz, List.take_zero, List.append_nil]

theorem from_wire_to_wire (t : Timelock) (hs : t.squarings < 2 ^ 32)
    (ha : (to_bytes_be t.a).length < 2 ^ 64) (hn : (to_bytes_be t.n).length < 2 ^ 64) :
    Timelock.from_wire t.to_wire = .ok t := by
  have hw : t.to_wire = writeBE 8 (to_bytes_be t.a).length ++ (to_bytes_be t.a ++
      (writeBE 8 (to_bytes_be t.n).length ++ (to_bytes_be t.n ++ writeBE 4 t.squarings))) := by
    simp [Timelock.to_wire, List.append_assoc]
  have hlen : t.to_wire.length =
      8 + (to_bytes_be t.a).length + 8 + (to_bytes_be t.n).length + 4 := by
    rw [hw]
    simp [List.length_append, length_writeBE]
    omega
  have hr1 : readBE t.to_wire 0 8 = (to_bytes_be t.a).length := by
    simp only [readBE, List.drop_zero]
    rw [hw, take_append_len _ _ 8 (length_writeBE 8 _), writeBE_eight _ ha]
  have hdrop8 : t.to_wire.drop 8 = to_bytes_be t.a ++
      (writeBE 8 (to_bytes_be t.n).length ++ (to_bytes_be t.n ++ writeBE 4 t.squarings)) := by
    rw [hw]
    exact drop_append_len _ _ 8 (length_writeBE 8 _)
  have hab : (t.to_wire.drop 8).take (to_bytes_be t.a).length = to_bytes_be t.a := by
    rw [hdrop8]
    exact take_append_len _ _ _ rfl
  have hdropla : t.to_wire.drop (8 + (to_bytes_be t.a).length) =
      writeBE 8 (to_bytes_be t.n).length ++ (to_bytes_be t.n ++ writeBE 4 t.squarings) := by
    rw [← List.drop_drop, hdrop8]
    exact drop_append_len _ _ _ rfl
  have hr2 : readBE t.to_wire (8 + (to_bytes_be t.a).length) 8 = (to_bytes_be t.n).length := by
    simp only [readBE]
    rw [hdropla, take_append_len _ _ 8 (length_writeBE 8 _), writeBE_eight _ hn]
  have hdropln : t.to_wire.drop (8 + (to_bytes_be t.a).length + 8) =
      to_bytes_be t.n ++ writeBE 4 t.squarings := by
    rw [← List.drop_drop, hdropla]
    exact drop_append_len _ _ 8 (length_writeBE 8 _)
  have hnb : (t.to_wire.drop (8 + (to_bytes_be t.a).length + 8)).take
      (to_bytes_be t.n).length = to_bytes_be t.n := by
    rw [hdropln]
    exact take_append_len _ _ _ rfl
  have hdropnb : t.to_wire.drop
      (8 + (to_bytes_be t.a).length + 8 + (to_bytes_be t.n).length) =
      writeBE 4 t.squarings := by
    rw [← List.drop_drop, hdropln]
    exact drop_append_len _ _ _ rfl
  have hr3 : readBE t.to_wire
      (8 + (to_bytes_be t.a).length + 8 + (to_bytes_be t.n).length) 4 = t.squarings := by
    simp only [readBE]
    rw [hdropnb]
    rw [show (writeBE 4 t.squarings).take 4 = writeBE 4 t.squarings from by
      rw [← length_writeBE 4 t.squarings]
      exact List.take_length _]
    exact writeBE_four _ hs
  simp only [Timelock.from_wire, hr1, hr2, hr3, hab, hnb]
  rw [if_neg (by omega), if_neg (by omega), if_neg (by omega), if_neg (by omega),
    if_neg (by omega), if_neg (by omega)]
  rw [from_to_bytes_be, from_to_bytes_be]

/-- C5: wire round-trip — for every `Timelock` value (with its `u32` squarings
field and buffer lengths within the machine widths the Rust types guarantee),
`from_wire(to_wire(t))` succeeds with a puzzle equal to `t` in all three fields
and with the same `perform_challenge` result. -/
theorem timelock_wire_roundtrip (t : Timelock) (hs : t.squarings < 2 ^ 32)
    (ha : (to_bytes_be t.a).length < 2 ^ 64) (hn : (to_bytes_be t.n).length < 2 ^ 64) :
    ∃ t', Timelock.from_wire t.to_wire = .ok t' ∧ t'.a = t.a ∧ t'.n = t.n ∧
      t'.squarings = t.squarings ∧ t'.perform_challenge = t.perform_challenge :=
  ⟨t, from_wire_to_wire t hs ha hn, rfl, rfl, rfl, rfl⟩

/-- C5 witness: the round-trip at the concrete puzzle `(a = 5, n = 9, squarings = 3)`. -/
theorem timelock_wire_roundtrip_witness :
    (3 : ℕ) < 2 ^ 32 ∧ (to_bytes_be 5).length < 2 ^ 64 ∧ (to_bytes_be 9).length < 2 ^ 64 ∧
    ∃ t', Timelock.from_wire (Timelock.to_wire ⟨5, 9, 3⟩) = .ok t' ∧ t'.a = 5 ∧ t'.n = 9 ∧
      t'.squarings = 3 ∧ t'.perform_challenge = Timelock.perform_challenge ⟨5, 9, 3⟩ :=
  ⟨by decide, by decide, by decide,
    timelock_wire_roundtrip ⟨5, 9, 3⟩ (by decide) (by decide) (by decide)⟩

theorem from_wire_ok_facts (data : List ℕ) (t : Timelock)
    (h : Timelock.from_wire data = .ok t) :
    8 ≤ data.length ∧ readBE data 0 8 ≤ data.length - 8 ∧
    8 ≤ data.length - (8 + readBE data 0 8) ∧
    readBE data (8 + readBE data 0 8) 8 ≤ data.length - (8 + readBE data 0 8 + 8) ∧
    4 ≤ data.length - (8 + readBE data 0 8 + 8 + readBE data (8 + readBE data 0 8) 8) ∧
    8 + readBE data 0 8 + 8 + readBE data (8 + readBE data 0 8) 8 + 4 = data.length := by
  simp only [Timelock.from_wire] at h
  split_ifs at h with c1 c2 c3 c4 c5 c6
  omega

/-- C6: parse strictness — a declared `len_a` or `len_n` exceeding the bytes
remaining after it yields `ParseError`, and any buffer that parses successfully
stops parsing successfully as soon as trailing bytes are appended (cursor must
equal the buffer length exactly after the squarings field). -/
theorem timelock_parse_strictness (data extra : List ℕ) (t : Timelock) :
    (8 ≤ data.length → data.length - 8 < readBE data 0 8 →
      Timelock.from_wire data = .parsingError) ∧
    (8 ≤ data.length → readBE data 0 8 ≤ data.length - 8 →
      8 ≤ data.length - (8 + readBE data 0 8) →
      data.length - (8 + readBE data 0 8 + 8) < readBE data (8 + readBE data 0 8) 8 →
      Timelock.from_wire data = .parsingError) ∧
    (Timelock.from_wire data = .ok t → extra ≠ [] →
      Timelock.from_wire (data ++ extra) = .unexpectedDataError) := by
  refine ⟨?_, ?_, ?_⟩
  · intro h1 h2
    simp only [Timelock.from_wire]
    rw [if_neg (by omega), if_pos (by omega)]
  · intro h1 h2 h3 h4
    simp only [Timelock.from_wire]
    rw [if_neg (by omega), if_neg (by omega), if_neg (by omega), if_pos (by omega)]
  · intro hok hextra
    obtain ⟨f1, f2, f3, f4, f5, f6⟩ := from_wire_ok_facts data t hok
    have hlen : (data ++ extra).length = data.length + extra.length := List.length_append _ _
    have hex : 0 < extra.length := List.length_pos.mpr hextra
    have e1 : readBE (data ++ extra) 0 8 = readBE data 0 8 :=
      readBE_append data extra 0 8 (by omega)
    have e2 : readBE (data ++ extra) (8 + readBE data 0 8) 8 =
        readBE data (8 + readBE data 0 8) 8 := readBE_append data extra _ 8 (by omega)
    simp only [Timelock.from_wire, e1, e2, hlen]
    rw [if_neg (by omega), if_neg (by omega), if_neg (by omega), if_neg (by omega),
      if_neg (by omega), if_pos (by omega)]

/-- C6 witness: a buffer whose `len_a` (100) exceeds the 3 remaining bytes
fails with `ParseError`; a byte appended to a valid encoding makes `from_wire`
fail. -/
theorem timelock_parse_strictness_witness :
    8 ≤ ([0, 0, 0, 0, 0, 0, 0, 100, 1, 2, 3] : List ℕ).length ∧
    ([0, 0, 0, 0, 0, 0, 0, 100, 1, 2, 3] : List ℕ).length - 8 <
      readBE [0, 0, 0, 0, 0, 0, 0, 100, 1, 2, 3] 0 8 ∧
    Timelock.from_wire [0, 0, 0, 0, 0, 0, 0, 100, 1, 2, 3] = .parsingError ∧
    Timelock.from_wire (Timelock.to_wire ⟨5, 9, 3⟩) = .ok ⟨5, 9, 3⟩ ∧
    ([0] : List ℕ) ≠ [] ∧
    Timelock.from_wire (Timelock.to_wire ⟨5, 9, 3⟩ ++ [0]) = .unexpectedDataError :=
  ⟨by decide, by decide,
    (timelock_parse_strictness [0, 0, 0, 0, 0, 0, 0, 100, 1, 2, 3] [] ⟨0, 0, 0⟩).1
      (by decide) (by decide),
    by decide, by decide,
    (timelock_parse_strictness (Timelock.to_wire ⟨5, 9, 3⟩) [0] ⟨5, 9, 3⟩).2.2
      (by decide) (by decide)⟩

/-- C10 (implicit): `from_wire` is not total on short buffers — each of the two
8-byte length reads and the 4-byte squarings read is by unguarded slice
indexing, so a buffer short at any of those three points reaches an
out-of-bounds read (Rust panic) instead of returning `ParseError`. -/
theorem from_wire_short_buffer_panics (data : List ℕ) :
    (data.length < 8 → Timelock.from_wire data = .sliceOob) ∧
    (8 ≤ data.length → readBE data 0 8 ≤ data.length - 8 →
      data.length - (8 + readBE data 0 8) < 8 → Timelock.from_wire data = .sliceOob) ∧
    (8 ≤ data.length → readBE data 0 8 ≤ data.length - 8 →
      8 ≤ data.length - (8 + readBE data 0 8) →
      readBE data (8 + readBE data 0 8) 8 ≤ data.length - (8 + readBE data 0 8 + 8) →
      data.length - (8 + readBE data 0 8 + 8 + readBE data (8 + readBE data 0 8) 8) < 4 →
      Timelock.from_wire data = .sliceOob) := by
  refine ⟨?_, ?_, ?_⟩
  · intro h1
    simp only [Timelock.from_wire]
    rw [if_pos (by omega)]
  · intro h1 h2 h3
    simp only [Timelock.from_wire]
    rw [if_neg (by omega), if_neg (by omega), if_pos (by omega)]
  · intro h1 h2 h3 h4 h5
    simp only [Timelock.from_wire]
    rw [if_neg (by omega), if_neg (by omega), if_neg (by omega), if_neg (by omega),
      if_pos (by omega)]

/-- C10 witness: the empty buffer, an 8-byte buffer short for `len_n`, and a
16-byte buffer short for `squarings` all reach the out-of-bounds read. -/
theorem from_wire_short_buffer_panics_witness :
    ([] : List ℕ).length < 8 ∧ Timelock.from_wire [] = .sliceOob ∧
    Timelock.from_wire [0, 0, 0, 0, 0, 0, 0, 0] = .sliceOob ∧
    Timelock.from_wire [0, 0, 0, 0, 0, 0, 0, 0, 0, 0, 0, 0, 0, 0, 0, 0] = .sliceOob :=
  ⟨by decide, (from_wire_short_buffer_panics []).1 (by decide),
    (from_wire_short_buffer_panics [0, 0, 0, 0, 0, 0, 0, 0]).2.1 (by decide) (by decide)
      (by decide),
    (from_wire_short_buffer_panics [0, 0, 0, 0, 0, 0, 0, 0, 0, 0, 0, 0, 0, 0, 0, 0]).2.2
      (by decide) (by decide) (by decide) (by decide) (by decide)⟩

/-! ## Roundtrip challenge (src/shared/src/challenges/roundtrip.rs) -/

structure Roundtrip where
  data : List ℕ
  deriving DecidableEq

structure RoundtripVerifier where
  hash : List ℕ
  deriving DecidableEq

/-- `roundtrip_utils::KB`. -/
def KB : ℕ := 1024

/-- Embedding of `roundtrip_utils::generate_data`: the next `bytes` bytes of
the RNG stream (the stream is passed as a function from index to byte). -/
def generate_data (rng : ℕ → ℕ) (bytes : ℕ) : List ℕ := (List.range bytes).map rng

/-- Embedding of `roundtrip_utils::generate_random_data_kb`. -/
def generate_random_data_kb (rng : ℕ → ℕ) (kilobytes : ℕ) : List ℕ :=
  generate_data rng (kilobytes * KB)

/-- Embedding of `Roundtrip::generate`, parameterized by the SHA-256 digest
function (the `sha2` crate is external to this repository; both `generate` and
`verify` call the same digest, which is all the claims rely on). -/
def Roundtrip.generate (sha256 : List ℕ → List ℕ) (rng : ℕ → ℕ) (size_in_kbs : ℕ) :
    Roundtrip × RoundtripVerifier :=
  let me : Roundtrip := ⟨generate_random_data_kb rng size_in_kbs⟩
  (me, ⟨sha256 me.data⟩)

/-- Embedding of `RoundtripVerifier::verify`: recompute the digest of the
response and compare with the stored one. -/
def RoundtripVerifier.verify (sha256 : List ℕ → List ℕ) (v : RoundtripVerifier)
    (client_response : List ℕ) : Bool :=
  sha256 client_response == v.hash

/-- C7: roundtrip generation and verification — the generated payload is exactly
`kilobytes * 1024` bytes, the verifier stores its digest, `verify` accepts a
response iff its digest equals the stored one (so the original passes and any
response with a different digest fails). -/
theorem roundtrip_generate_verify (sha256 : List ℕ → List ℕ) (rng : ℕ → ℕ) (k : ℕ) :
    (Roundtrip.generate sha256 rng k).1.data.length = k * 1024 ∧
    (Roundtrip.generate sha256 rng k).2.hash = sha256 (Roundtrip.generate sha256 rng k).1.data ∧
    (∀ r, RoundtripVerifier.verify sha256 (Roundtrip.generate sha256 rng k).2 r = true ↔
      sha256 r = sha256 (Roundtrip.generate sha256 rng k).1.data) ∧
    RoundtripVerifier.verify sha256 (Roundtrip.generate sha256 rng k).2
      (Roundtrip.generate sha256 rng k).1.data = true ∧
    (∀ r, sha256 r ≠ sha256 (Roundtrip.generate sha256 rng k).1.data →
      RoundtripVerifier.verify sha256 (Roundtrip.generate sha256 rng k).2 r = false) := by
  refine ⟨?_, rfl, ?_, ?_, ?_⟩
  · simp [Roundtrip.generate, generate_random_data_kb, generate_data, KB]
  · intro r
    simp [RoundtripVerifier.verify, Roundtrip.generate]
  · simp [RoundtripVerifier.verify, Roundtrip.generate]
  · intro r hr
    simp only [RoundtripVerifier.verify, Roundtrip.generate]
    exact beq_eq_false_iff_ne.mpr hr

/-- C7 witness: with the identity digest, empty stream and `k = 0`, the
original (empty) payload verifies and the distinct response `[1]` fails. -/
theorem roundtrip_generate_verify_witness :
    (fun l : List ℕ => l) [1] ≠
      (fun l : List ℕ => l) (Roundtrip.generate (fun l => l) (fun _ => 0) 0).1.data ∧
    RoundtripVerifier.verify (fun l => l) (Roundtrip.generate (fun l => l) (fun _ => 0) 0).2
      [1] = false :=
  ⟨by decide,
    (roundtrip_generate_verify (fun l => l) (fun _ => 0) 0).2.2.2.2 [1] (by decide)⟩

/-! ## Response verification helpers (src/server/src/measurements/helpers.rs) -/

/-- Embedding of `verify_cpu_challenge_response`: accept only a
`Response::CPUChallengeResponse`, interpret its bytes as a big-endian unsigned
integer, and compare with the verifier's answer. -/
def verify_cpu_challenge_response (timelock_verifier : TimelockVerifier)
    (response : Message) : Bool :=
  match response with
  | .Response (.CPUChallengeResponse serialized_answer) =>
    timelock_verifier.verify (from_bytes_be serialized_answer)
  | _ => false

/-- Embedding of `verify_network_challenge_response`. -/
def verify_network_challenge_response (sha256 : List ℕ → List ℕ)
    (roundtrip_verifier : RoundtripVerifier) (response : Message) : Bool :=
  match response with
  | .Response (.NetworkChallengeResponse serialized_answer) =>
    roundtrip_verifier.verify sha256 serialized_answer
  | _ => false

theorem beVal_replicate_zero_append (k : ℕ) (b : List ℕ) :
    beVal (List.replicate k 0 ++ b) = beVal b := by
  induction k with
  | zero => rfl
  | succ m ih =>
    simpa [beVal, List.replicate_succ] using ih

/-- C9: CPU response leading zeros are immaterial — the response bytes are read
as a big-endian unsigned integer, so prepending any number of zero bytes leaves
the verification verdict unchanged; and every non-`Response::CPUChallengeResponse`
message is rejected. -/
theorem cpu_response_leading_zeros (v : TimelockVerifier) (b : List ℕ) (k : ℕ) :
    verify_cpu_challenge_response v
        (.Response (.CPUChallengeResponse (List.replicate k 0 ++ b))) =
      verify_cpu_challenge_response v (.Response (.CPUChallengeResponse b)) ∧
    (∀ m : Message, (∀ b', m ≠ .Response (.CPUChallengeResponse b')) →
      verify_cpu_challenge_response v m = false) := by
  constructor
  · simp only [verify_cpu_challenge_response, from_bytes_be, beVal_replicate_zero_append]
  · intro m hm
    cases m with
    | Response r =>
      cases r with
      | CPUChallengeResponse b' => exact absurd rfl (hm b')
      | NetworkChallengeResponse b' => rfl
    | Challenge c => rfl
    | Data d => rfl
    | Unknown => rfl

/-- C9 witness: three leading zero bytes do not change the verdict on a
concrete response, and a non-CPU message is rejected. -/
theorem cpu_response_leading_zeros_witness :
    verify_cpu_challenge_response ⟨7⟩
        (.Response (.CPUChallengeResponse (List.replicate 3 0 ++ [7]))) =
      verify_cpu_challenge_response ⟨7⟩ (.Response (.CPUChallengeResponse [7])) ∧
    (∀ b', (Message.Unknown ≠ .Response (.CPUChallengeResponse b'))) ∧
    verify_cpu_challenge_response ⟨7⟩ .Unknown = false :=
  ⟨(cpu_response_leading_zeros ⟨7⟩ [7] 3).1,
    fun b' => by simp,
    (cpu_response_leading_zeros ⟨7⟩ [] 0).2 .Unknown (fun b' => by simp)⟩

/-! ## Session driver (src/server/src/measurements/challenges.rs, types.rs) -/

/-- The failure modes a challenge iteration can surface (transport errors and
decode errors from `send_client_msg_with_profiling`, a peer-reported
`Data::Error`, encode failures, or a failed verification). -/
inductive SessionError
  | streamClosed
  | streamReadError
  | wrongMessageFormat
  | decodeError
  | encodeError
  | clientReportedError (text : String)
  | cpuMeasurementFailed
  | networkMeasurementFailed
  deriving DecidableEq

/-- Embedding of `ClientData` (src/server/src/types.rs). -/
structure ClientData where
  score : ℕ
  cpu_challenge_timings_in_milis : List ℕ
  network_challenge_timings_in_milis : List ℕ
  deriving DecidableEq

/-- Embedding of `perform_cpu_challenge` past the exchange boundary: the
transport exchange result and the error-report send result are inputs; a
failed verification reports to the client and fails with `MeasurementFailed`. -/
def perform_cpu_challenge (timelock_verifier : TimelockVerifier)
    (exchange : Except SessionError (Message × ℕ)) (errSend : Except SessionError Unit) :
    Except SessionError ℕ :=
  match exchange with
  | .error e => .error e
  | .ok (client_response, time_elapsed) =>
    if verify_cpu_challenge_response timelock_verifier client_response then .ok time_elapsed
    else
      match errSend with
      | .error e => .error e
      | .ok _ => .error .cpuMeasurementFailed

/-- Embedding of `perform_network_challenge` past the exchange boundary. -/
def perform_network_challenge (sha256 : List ℕ → List ℕ)
    (roundtrip_verifier : RoundtripVerifier)
    (exchange : Except SessionError (Message × ℕ)) (errSend : Except SessionError Unit) :
    Except SessionError ℕ :=
  match exchange with
  | .error e => .error e
  | .ok (client_response, time_elapsed) =>
    if verify_network_challenge_response sha256 roundtrip_verifier client_response then
      .ok time_elapsed
    else
      match errSend with
      | .error e => .error e
      | .ok _ => .error .networkMeasurementFailed

/-- The challenge loop of `challenge_client`: run the per-iteration challenge
for indices `0..n`, collecting the elapsed times in issue order; the first
failure aborts (`?` operator). -/
def collectTimings (env : ℕ → Except SessionError ℕ) : ℕ → Except SessionError (List ℕ)
  | 0 => .ok []
  | n + 1 =>
    match collectTimings env n with
    | .error e => .error e
    | .ok l =>
      match env n with
      | .error e => .error e
      | .ok t => .ok (l ++ [t])

/-- Embedding of `ClientChallenger::challenge_client`: run the CPU loop, then
the network loop, then score and insert into the storage map, then send the
info message (whose failure is reported but happens after the insert).  The
per-iteration challenge outcomes are inputs (`cpuEnv`, `netEnv`). -/
def challenge_client (number_of_cpu_challenge number_of_network_challenge : ℕ)
    (cpu_challenge_config : CPUChallengeConfiguration)
    (network_challenge_config : NetworkChallengeConfiguration)
    (cpuEnv netEnv : ℕ → Except SessionError ℕ) (finalSend : Except SessionError Unit)
    (storage : ℕ → Option ClientData) (client_id : ℕ) :
    (ℕ → Option ClientData) × Except SessionError Unit :=
  match collectTimings cpuEnv number_of_cpu_challenge with
  | .error e => (storage, .error e)
  | .ok cpu_results =>
    match collectTimings netEnv number_of_network_challenge with
    | .error e => (storage, .error e)
    | .ok network_results =>
      let client_score := calculate_score cpu_challenge_config cpu_results
        network_challenge_config network_results
      (fun id => if id = client_id then
          some ⟨client_score, cpu_results, network_results⟩
        else storage id,
        match finalSend with
        | .error e => .error e
        | .ok _ => .ok ())

theorem collectTimings_ok_iff (env : ℕ → Except SessionError ℕ) (n : ℕ) :
    (∃ l, collectTimings env n = .ok l) ↔ ∀ i < n, ∃ t, env i = .ok t := by
  induction n with
  | zero =>
    constructor
    · intro _ i hi; omega
    · intro _; exact ⟨[], rfl⟩
  | succ n ih =>
    constructor
    · rintro ⟨l', hl'⟩ i hi
      rcases hcol : collectTimings env n with e | l
      · rw [collectTimings, hcol] at hl'
        exact absurd hl' (by simp)
      · rcases henv : env n with e | t
        · rw [collectTimings, hcol, henv] at hl'
          exact absurd hl' (by simp)
        · rcases Nat.lt_succ_iff_lt_or_eq.mp hi with h | h
          · exact ih.mp ⟨l, hcol⟩ i h
          · subst h; exact ⟨t, henv⟩
    · intro h
      obtain ⟨l, hl⟩ := ih.mpr fun i hi => h i (by omega)
      obtain ⟨t, ht⟩ := h n (Nat.lt_succ_self n)
      exact ⟨l ++ [t], by rw [collectTimings, hl, ht]⟩

theorem collectTimings_error (env : ℕ → Except SessionError ℕ) (n : ℕ)
    (h : ¬ ∀ i < n, ∃ t, env i = .ok t) : ∃ e, collectTimings env n = .error e := by
  rcases hcol : collectTimings env n with e | l
  · exact ⟨e, rfl⟩
  · exact absurd ((collectTimings_ok_iff env n).mp ⟨l, hcol⟩) h

/-- C8: session atomicity — if any of the 5 CPU or 10 network challenge
iterations fails for any reason, `challenge_client` returns an error and the
storage map is left exactly as it was (no partial record); when all 15 succeed,
exactly one record — scored from the collected timings — is inserted under the
session id, and every other id is untouched. -/
theorem challenge_client_atomic (cc : CPUChallengeConfiguration)
    (nc : NetworkChallengeConfiguration) (cpuEnv netEnv : ℕ → Except SessionError ℕ)
    (finalSend : Except SessionError Unit) (storage : ℕ → Option ClientData)
    (client_id : ℕ) :
    ((∃ i < 5, ∃ e, cpuEnv i = .error e) ∨ (∃ j < 10, ∃ e, netEnv j = .error e) →
      (challenge_client 5 10 cc nc cpuEnv netEnv finalSend storage client_id).1 = storage ∧
      ∃ e, (challenge_client 5 10 cc nc cpuEnv netEnv finalSend storage client_id).2 =
        .error e) ∧
    ((∀ i < 5, ∃ t, cpuEnv i = .ok t) → (∀ j < 10, ∃ t, netEnv j = .ok t) →
      ∃ cpu_results network_results,
        collectTimings cpuEnv 5 = .ok cpu_results ∧
        collectTimings netEnv 10 = .ok network_results ∧
        (challenge_client 5 10 cc nc cpuEnv netEnv finalSend storage client_id).1 client_id =
          some ⟨calculate_score cc cpu_results nc network_results, cpu_results,
            network_results⟩ ∧
        (∀ id, id ≠ client_id →
          (challenge_client 5 10 cc nc cpuEnv netEnv finalSend storage client_id).1 id =
            storage id)) := by
  constructor
  · intro hfail
    rcases hcol : collectTimings cpuEnv 5 with e | l
    · constructor
      · simp [challenge_client, hcol]
      · exact ⟨e, by simp [challenge_client, hcol]⟩
    · have hcpuok : ∀ i < 5, ∃ t, cpuEnv i = .ok t :=
        (collectTimings_ok_iff cpuEnv 5).mp ⟨l, hcol⟩
      have hnetfail : ¬ ∀ j < 10, ∃ t, netEnv j = .ok t := by
        rcases hfail with ⟨i, hi, e, he⟩ | ⟨j, hj, e, he⟩
        · obtain ⟨t, ht⟩ := hcpuok i hi
          rw [he] at ht
          exact absurd ht (by simp)
        · intro hall
          obtain ⟨t, ht⟩ := hall j hj
          rw [he] at ht
          exact absurd ht (by simp)
      obtain ⟨e, hecol⟩ := collectTimings_error netEnv 10 hnetfail
      constructor
      · simp [challenge_client, hcol, hecol]
      · exact ⟨e, by simp [challenge_client, hcol, hecol]⟩
  · intro hcpu hnet
    obtain ⟨l, hl⟩ := (collectTimings_ok_iff cpuEnv 5).mpr hcpu
    obtain ⟨l', hl'⟩ := (collectTimings_ok_iff netEnv 10).mpr hnet
    refine ⟨l, l', hl, hl', ?_, ?_⟩
    · simp [challenge_client, hl, hl']
    · intro id hid
      simp [challenge_client, hl, hl', hid]

/-- C8 witness: with every iteration succeeding, the record for session id 0 is
inserted with the computed score and other ids stay empty. -/
theorem challenge_client_atomic_witness :
    (∀ i < 5, ∃ t, (fun _ : ℕ => (Except.ok 100 : Except SessionError ℕ)) i = .ok t) ∧
    (∀ j < 10, ∃ t, (fun _ : ℕ => (Except.ok 200 : Except SessionError ℕ)) j = .ok t) ∧
    (∃ cpu_results network_results,
      collectTimings (fun _ => .ok 100) 5 = .ok cpu_results ∧
      collectTimings (fun _ => .ok 200) 10 = .ok network_results ∧
      (challenge_client 5 10 ⟨0, 100, 1100⟩ ⟨0, 200, 2200⟩ (fun _ => .ok 100)
          (fun _ => .ok 200) (.ok ()) (fun _ => none) 0).1 0 =
        some ⟨calculate_score ⟨0, 100, 1100⟩ cpu_results ⟨0, 200, 2200⟩ network_results,
          cpu_results, network_results⟩ ∧
      (∀ id, id ≠ 0 →
        (challenge_client 5 10 ⟨0, 100, 1100⟩ ⟨0, 200, 2200⟩ (fun _ => .ok 100)
            (fun _ => .ok 200) (.ok ()) (fun _ => none) 0).1 id = none)) :=
  ⟨fun i _ => ⟨100, rfl⟩, fun j _ => ⟨200, rfl⟩,
    (challenge_client_atomic ⟨0, 100, 1100⟩ ⟨0, 200, 2200⟩ (fun _ => .ok 100)
      (fun _ => .ok 200) (.ok ()) (fun _ => none) 0).2
      (fun i _ => ⟨100, rfl⟩) (fun j _ => ⟨200, rfl⟩)⟩
